import Mathlib

/-!
Verification of the trace context engine of `src/utils/Trace.hpp`
(a DBUG-style tracing facility).

The repository ships only the header: the `Trace` class declaration, the
inline bodies of `disable`/`enable` and of the `Configuration`/`Context`
constructors, the option-letter table (header comment), and the macro
layer.  Every other member function body (`parseOptions`, `out`, `~Trace`,
`printState`, `check`, `compare`, `createContext`, `context`, `traceOut`,
the configuration setters) lives in a `.cpp` file that is not part of the
sources.  Definitions for those members are therefore modelled from the
specification, as marked by their doc comments; the structures, field
names, signatures and the inline bodies follow the header directly.
-/

namespace Trace

/-! ### Option set

The letter-to-feature table is fixed in the header comment of
`Trace.hpp` (lines 19-29): f, l, m, i, n, p, t, d, c, r.  The concrete
bit positions are not observable in the header; we assign them in table
order. -/

def fileNameBit : Nat := 0
def lineNumberBit : Nat := 1
def msBit : Nat := 2
def threadIdBit : Nat := 3
def threadNameBit : Nat := 4
def printBit : Nat := 5
def traceBit : Nat := 6
def dateBit : Nat := 7
def checkBit : Nat := 8
def rowBit : Nat := 9

/-- The fixed letter-to-bit table from the header comment: every letter
outside the table maps to `none`. -/
def letterBit : Char → Option Nat
  | 'f' => some fileNameBit
  | 'l' => some lineNumberBit
  | 'm' => some msBit
  | 'i' => some threadIdBit
  | 'n' => some threadNameBit
  | 'p' => some printBit
  | 't' => some traceBit
  | 'd' => some dateBit
  | 'c' => some checkBit
  | 'r' => some rowBit
  | _   => none

/-- Modelled from the spec: the body of `Trace::parseOptions` is not in
`src/` (only its declaration, line 144 of `Trace.hpp`).  Per §4.1 it
iterates the characters of the string, each recognized letter sets the
corresponding bit, unrecognized letters are no-ops, and it returns the
accumulated bitmask. -/
def parseOptions (s : String) : Nat :=
  s.data.foldl
    (fun acc c =>
      match letterBit c with
      | some b => acc ||| (1 <<< b)
      | none => acc) 0

/-! ### Configuration and Context (structures from the header) -/

/-- `Trace::Configuration`, lines 93-104 of `Trace.hpp`. -/
structure Configuration where
  name : String
  options : Nat
  prompt : String
  simpleSearchStr : String
  regexpStr : String
  logFileName_ : String
  logFileMode_ : String
  deriving Repr, DecidableEq

/-- The inline constructor `explicit Configuration(){options=0;}`
(line 94): `options` is set to 0 and the `std::string` fields
default-construct empty. -/
def Configuration.init : Configuration :=
  { name := "", options := 0, prompt := "", simpleSearchStr := "",
    regexpStr := "", logFileName_ := "", logFileMode_ := "" }

/-- `Trace::Context`, lines 105-114 of `Trace.hpp`.  `std::thread::id` is
modelled as a `Nat`; the `Configuration*` and `std::ostream*` pointers
are modelled as `Option`s with `none` for null. -/
structure Context where
  threadId : Nat
  nestingLevel : Int
  conf : Option Configuration
  logStream_ : Option String
  deriving Repr, DecidableEq

/-- The inline constructor
`explicit Context(){nestingLevel=0;conf=nullptr;logStream_=nullptr;}`
(line 106): depth 0, null configuration, null log stream; `threadId`
default-constructs to the identity of no thread (modelled as 0). -/
def Context.init : Context :=
  { threadId := 0, nestingLevel := 0, conf := none, logStream_ := none }

/-! ### Context registry

`contexts_` (line 172, "One context per thread") is the registry; the
body of `Trace::context()` (declared line 168) is not in `src/`. -/

/-- Lookup of a thread's Context in the registry vector. -/
def findContext (r : List Context) (tid : Nat) : Option Context :=
  r.find? (fun c => c.threadId == tid)

/-- Modelled from the spec: the body of `Trace::context()` is not in
`src/` (only the declaration, line 168, and the `contexts_` vector,
line 172).  Per §4.3 it looks the calling thread up in the registry and,
if absent, constructs a new Context bound to that thread and appends it;
the returned Context is the one stored for that thread. -/
def contextFor (r : List Context) (tid : Nat) : Context × List Context :=
  match findContext r tid with
  | some c => (c, r)
  | none =>
      ({ Context.init with threadId := tid },
       r ++ [{ Context.init with threadId := tid }])

/-- Modelled from the spec: a nesting-depth mutation performed by a
Scoped Trace Handle on its own thread's Context (§4.3/§4.4) updates the
`nestingLevel` of the registry entry with that thread identity only. -/
def bumpDepth (r : List Context) (tid : Nat) (f : Int → Int) : List Context :=
  r.map fun c =>
    if c.threadId == tid then { c with nestingLevel := f c.nestingLevel } else c

/-- The nesting depth the registry records for a thread (0 when the
thread has no Context yet, matching the `Context` constructor). -/
def depthOf (r : List Context) (tid : Nat) : Int :=
  ((findContext r tid).map Context.nestingLevel).getD 0

/-! ### Keyword filter (regular expressions)

`printState` (declared line 129) filters keyword-tagged prints against
the per-context regular expression `regexpStr` (line 99); its body is
not in `src/`.  The filter semantics is §4.6's `matches`: an empty
pattern passes everything, otherwise the keyword must match the pattern
as a full regular-expression match.  The pattern is modelled as an
abstract regex syntax tree (`none` standing for the empty pattern
string), matched by Brzozowski derivatives. -/

/-- Regular expressions: empty language, empty string, a literal
character, the any-character wildcard `.`, concatenation, alternation
and Kleene star. -/
inductive Regex where
  | fail : Regex
  | eps : Regex
  | chr : Char → Regex
  | anyChar : Regex
  | cat : Regex → Regex → Regex
  | alt : Regex → Regex → Regex
  | star : Regex → Regex
  deriving Repr, DecidableEq

/-- Whether a regex accepts the empty string. -/
def nullable : Regex → Bool
  | .fail => false
  | .eps => true
  | .chr _ => false
  | .anyChar => false
  | .cat r1 r2 => nullable r1 && nullable r2
  | .alt r1 r2 => nullable r1 || nullable r2
  | .star _ => true

/-- Brzozowski derivative of a regex with respect to one character. -/
def deriv : Regex → Char → Regex
  | .fail, _ => .fail
  | .eps, _ => .fail
  | .chr c, a => if a = c then .eps else .fail
  | .anyChar, _ => .eps
  | .cat r1 r2, a =>
      if nullable r1 then .alt (.cat (deriv r1 a) r2) (deriv r2 a)
      else .cat (deriv r1 a) r2
  | .alt r1 r2, a => .alt (deriv r1 a) (deriv r2 a)
  | .star r, a => .cat (deriv r a) (.star r)

/-- Full-match of a regex against a whole character list (the semantics
of `std::regex_match`: the entire keyword must be in the language, not
merely contain a matching substring). -/
def rmatch (r : Regex) (cs : List Char) : Bool :=
  nullable (cs.foldl deriv r)

/-- Modelled from the spec: §4.6's `matches(contextFilter, keyword)`.
`none` models an empty `regexpStr`: every keyword passes; otherwise the
keyword must fully match the stored pattern. -/
def filterPasses (filter : Option Regex) (keyword : String) : Bool :=
  match filter with
  | none => true
  | some r => rmatch r keyword.data

/-- The pattern `"^db.*"` of §8 under full-match semantics: the leading
anchor is redundant for `std::regex_match`, leaving the literal `db`
followed by `.*`. -/
def dbPattern : Regex := .cat (.chr 'd') (.cat (.chr 'b') (.star .anyChar))

/-! ### Emission state machine

The emitting members (`Trace::Trace`, `out`, `~Trace`, `printState`,
`check`, `compare`, `profTimerStart`, `profTimerElapsed`) are declared
in the header (lines 126-141) but their bodies are not in `src/`; they
are modelled from §4.4-§4.6.  A `Line` is one formatted output line,
kept structured; `TrState` carries the process-wide disable flag
(`s_disabled`, line 197, with the inline `disable`/`enable` bodies of
lines 119-120), the active option bitmask, the context's keyword filter,
the context's nesting depth, and the emitted output. -/

/-- One emitted output line, by kind. -/
inductive Line where
  | entry : String → Int → Line
  | exitL : String → Int → Option Nat → Int → Line
  | print : String → String → Line
  | checkLine : String → Bool → Int → Line
  | compareLine : String → String → Bool → Int → Line
  | profStartLine : Int → Line
  | profElapsedLine : Int → Option Nat → Line
  deriving Repr, DecidableEq

/-- The tracing state visible to one thread's handle operations. -/
structure TrState where
  disabled : Bool
  options : Nat
  filter : Option Regex
  depth : Int
  output : List Line
  deriving Repr, DecidableEq

/-- `disable(){s_disabled = true;}` (line 119, inline in the header). -/
def disable (s : TrState) : TrState := { s with disabled := true }

/-- `enable(){s_disabled = false;}` (line 120, inline in the header). -/
def enable (s : TrState) : TrState := { s with disabled := false }

/-- Whether an emission gated on option bit `bit` goes through: the
global switch short-circuits everything (§3, §5); otherwise the bit must
be set in the active options. -/
def emitting (s : TrState) (bit : Nat) : Bool :=
  !s.disabled && s.options.testBit bit

/-- A Scoped Trace Handle: fields `funcName_`, `fileName_`, `line_`,
`exitLine_` from the header (lines 176-179); `exited` is the spec's
"exit already emitted" flag (§3, Scoped Trace Handle), not a named field
of the header. -/
structure Handle where
  funcName_ : String
  fileName_ : String
  line_ : Int
  exitLine_ : Int
  exited : Bool
  deriving Repr, DecidableEq

/-- Modelled from the spec: the body of the constructor
`Trace(func, file, line)` (declared line 126) is not in `src/`.  Per
§4.4 it increments the thread's nesting depth, records the entry data,
and emits an entry line at the pre-increment nesting level when the
global switch is enabled and call-trace tracing (`t`) is on. -/
def traceEnter (s : TrState) (func file : String) (line : Int) :
    TrState × Handle :=
  ({ s with
      depth := s.depth + 1,
      output := s.output ++
        (if emitting s traceBit then [Line.entry func s.depth] else []) },
   { funcName_ := func, fileName_ := file, line_ := line,
     exitLine_ := line, exited := false })

/-- Modelled from the spec: the body of `Trace::out` (declared line 127)
is not in `src/`.  Per §4.4 (`markExit`): when the handle is already
Closed this is a no-op; otherwise it emits the exit line (tagged with
the supplied line number and the elapsed time, the time being an input
from the external timer), decrements the thread's nesting depth with the
defensive floor at 0 (§8), and transitions the handle to Closed. -/
def out (s : TrState) (h : Handle) (line : Int) (elapsedUs : Nat) :
    TrState × Handle :=
  if h.exited then (s, h)
  else
    ({ s with
        depth := max (s.depth - 1) 0,
        output := s.output ++
          (if emitting s traceBit then
            [Line.exitL h.funcName_ line (some elapsedUs) (s.depth - 1)]
          else []) },
     { h with exited := true, exitLine_ := line })

/-- Modelled from the spec: the body of the destructor `~Trace`
(declared line 131) is not in `src/`.  Per §4.4, natural end-of-scope
performs `markExit` with the original entry line if the caller never
explicitly marked an exit; on an already-Closed handle it does
nothing. -/
def destroyHandle (s : TrState) (h : Handle) (elapsedUs : Nat) : TrState :=
  (out s h h.line_ elapsedUs).1

/-- Modelled from the spec: the body of `Trace::printState` (declared
line 129) is not in `src/`.  Per §4.4/§4.6 it emits a tagged print line
when the keyword passes the context's filter, gated by the global switch
and the `p` option bit ("print strings provided in TRACE_PRINT"),
without altering nesting depth or timing. -/
def printState (s : TrState) (keyword : String) (text : String) : TrState :=
  if emitting s printBit && filterPasses s.filter keyword then
    { s with output := s.output ++ [Line.print keyword text] }
  else s

/-- Modelled from the spec: the body of `Trace::check` (declared
line 134) is not in `src/`.  Per §4.6 it emits a pass/fail line with the
literal expression text and the boolean result when the check-output bit
(`c`) is set, and is fully suppressed otherwise; the expression's value
is already evaluated by the caller and passed in as `result`. -/
def check (s : TrState) (expression : String) (result : Bool) (line : Int) :
    TrState :=
  if emitting s checkBit then
    { s with output := s.output ++ [Line.checkLine expression result line] }
  else s

/-- Modelled from the spec: the bodies of the `Trace::compare` overloads
(declared lines 136-141) are not in `src/`.  Per §4.6 they test equality
of the two values and format both labels with the outcome into one line;
emission is gated like `check`. -/
def compare (s : TrState) (first second : String) (equal : Bool)
    (lineNo : Int) : TrState :=
  if emitting s checkBit then
    { s with output := s.output ++ [Line.compareLine first second equal lineNo] }
  else s

/-- Modelled from the spec: the body of `Trace::profTimerStart`
(declared line 132) is not in `src/`.  Per §4.4 it emits a start line
for the ad-hoc stopwatch; gated by the global switch and the `m`
(milliseconds) bit. -/
def profTimerStart (s : TrState) (lineNo : Int) : TrState :=
  if emitting s msBit then
    { s with output := s.output ++ [Line.profStartLine lineNo] }
  else s

/-- Modelled from the spec: the body of `Trace::profTimerElapsed`
(declared line 133) is not in `src/`.  Per §4.4 it emits an elapsed line
for the ad-hoc stopwatch; gated like `profTimerStart`. -/
def profTimerElapsed (s : TrState) (lineNo : Int) (elapsedUs : Nat) :
    TrState :=
  if emitting s msBit then
    { s with output := s.output ++ [Line.profElapsedLine lineNo (some elapsedUs)] }
  else s

/-- Recognizer for exit lines, for counting emissions. -/
def isExitLine : Line → Bool
  | .exitL _ _ _ _ => true
  | _ => false

/-- How many exit lines a piece of output contains. -/
def exitCount (ls : List Line) : Nat := (ls.filter isExitLine).length

/-- One nesting event on a thread: a handle opens, or a handle whose
"exit already emitted" flag is in the given state is closed (either by
an explicit `out` or by destruction). -/
inductive HOp where
  | openOp : HOp
  | closeOp : Bool → HOp
  deriving Repr, DecidableEq

/-- Apply one nesting event through the handle operations themselves
(the function name, file and line play no role in depth bookkeeping). -/
def applyHOp (s : TrState) : HOp → TrState
  | .openOp => (traceEnter s "" "" 0).1
  | .closeOp ex =>
      (out s
        { funcName_ := "", fileName_ := "", line_ := 0, exitLine_ := 0,
          exited := ex } 0 0).1

/-- Run a sequence of nesting events left to right. -/
def runHOps (s : TrState) (ops : List HOp) : TrState :=
  ops.foldl applyHOp s

/-! ### Configuration store

`createContext` is declared with a name and an options string
(line 117); the setters (lines 147-148 and 161-165) are declared in the
header but all bodies are in the missing `.cpp`.  §4.2 specifies the
store as a name-keyed table whose mutators silently no-op on unknown
names, while `create` always succeeds; §8/§9 fix that re-creating an
existing name overwrites only the option bitmask. -/

/-- The process-wide name-to-Configuration table `configMap_`
(line 195), modelled as an association list. -/
abbrev ConfigMap : Type := List (String × Configuration)

/-- Lookup of a configuration by name. -/
def lookupConf (m : ConfigMap) (name : String) : Option Configuration :=
  (List.find? (fun p => p.1 == name) m).map (fun p => p.2)

/-- Apply `f` to the entry (or entries) stored under `name`; a name not
in the table is untouched. -/
def updateConf (m : ConfigMap) (name : String)
    (f : Configuration → Configuration) : ConfigMap :=
  List.map (fun p => if p.1 == name then (p.1, f p.2) else p) m

/-- Modelled from the spec: the body of `Trace::createContext` (declared
line 117) is not in `src/`.  Per §4.2 it parses the options string and
inserts into the table; per §8/§9, when the name already exists only
that entry's option bitmask is overwritten and previously set
prompt/filter fields are left untouched. -/
def createContext (m : ConfigMap) (name opts : String) : ConfigMap :=
  match lookupConf m name with
  | some _ =>
      updateConf m name (fun c => { c with options := parseOptions opts })
  | none =>
      (name,
        { Configuration.init with
            name := name
            options := parseOptions opts }) :: m

/-- Modelled from the spec: the body of `Trace::setOptions` (declared
line 148) is not in `src/`.  §4.2: mutates the named entry's bitmask,
silently a no-op when the name is unknown. -/
def setOptions (m : ConfigMap) (name : String) (o : Nat) : ConfigMap :=
  updateConf m name (fun c => { c with options := o })

/-- Modelled from the spec: the body of `Trace::setSimpleSearchStr`
(declared line 161) is not in `src/`.  §4.2: mutates the named entry's
simple-search text, silently a no-op when the name is unknown. -/
def setSimpleSearchStr (m : ConfigMap) (name t : String) : ConfigMap :=
  updateConf m name (fun c => { c with simpleSearchStr := t })

/-- Modelled from the spec: the body of `Trace::setRegExpStr` (declared
line 162) is not in `src/`.  §4.2 (`setFilterRegex`): mutates the named
entry's filter pattern, silently a no-op when the name is unknown. -/
def setRegExpStr (m : ConfigMap) (name pat : String) : ConfigMap :=
  updateConf m name (fun c => { c with regexpStr := pat })

/-- Modelled from the spec: the body of `Trace::setLogFile` (declared
line 164) is not in `src/`.  §4.2 (`setLogDestination`): mutates the
named entry's log destination and write mode, silently a no-op when the
name is unknown. -/
def setLogFile (m : ConfigMap) (name target : String) (overWrite : Bool) :
    ConfigMap :=
  updateConf m name (fun c =>
    { c with logFileName_ := target,
             logFileMode_ := if overWrite then "overwrite" else "append" })

/-- Modelled from the spec: the body of `Trace::setPrompt` (declared
line 165) is not in `src/`.  §4.2: mutates the named entry's prompt,
silently a no-op when the name is unknown. -/
def setPrompt (m : ConfigMap) (name t : String) : ConfigMap :=
  updateConf m name (fun c => { c with prompt := t })

/-! ### Output formatting of elapsed time

`traceOut` (declared line 169) takes `double ms = -1.0`: the default
sentinel marks an event with no measured interval.  Its body is not in
`src/`; the elapsed-time rendering is modelled from §4.5. -/

/-- The decimal digit character for `n < 10`. -/
def digitChar (n : Nat) : Char := Char.ofNat (48 + n)

/-- Exactly three decimal digits for a value below 1000. -/
def pad3 (n : Nat) : String :=
  String.mk [digitChar (n / 100), digitChar (n / 10 % 10), digitChar (n % 10)]

/-- Modelled from the spec: the elapsed-time field of `Trace::traceOut`
(declared line 169 with the `ms = -1.0` no-interval default; body not in
`src/`).  Per §4.5 a measured interval (here in microseconds) is printed
as milliseconds with fixed decimal precision, and the absence of a
measured interval renders as an explicit placeholder, not as zero. -/
def formatElapsed : Option Nat → String
  | none => "-"
  | some us => toString (us / 1000) ++ "." ++ pad3 (us % 1000)

/-- Modelled from the spec: the line construction of `Trace::traceOut`
(declared line 169; body not in `src/`).  Per §4.5 the fields whose
option bits are set are concatenated in fixed order, the elapsed-time
position rendered by `formatElapsed`. -/
def traceOut (ct : Context) (options : Nat) (extra funcName args fileName :
    String) (lineNo : Int) (ms : Option Nat) : String :=
  (match ct.conf with | some c => c.prompt | none => "") ++
  (if options.testBit fileNameBit then fileName ++ " " else "") ++
  (if options.testBit lineNumberBit then toString lineNo ++ " " else "") ++
  extra ++ funcName ++
  (if options.testBit msBit then " " ++ formatElapsed ms else "") ++
  args

end Trace

/-! ## Helper lemmas -/

theorem runHOps_append (s : Trace.TrState) (l1 l2 : List Trace.HOp) :
    Trace.runHOps s (l1 ++ l2) = Trace.runHOps (Trace.runHOps s l1) l2 :=
  List.foldl_append _ _ _ _

theorem applyHOp_depth_open (s : Trace.TrState) :
    (Trace.applyHOp s Trace.HOp.openOp).depth = s.depth + 1 := by
  simp [Trace.applyHOp, Trace.traceEnter]

theorem applyHOp_depth_close_false (s : Trace.TrState) :
    (Trace.applyHOp s (Trace.HOp.closeOp false)).depth = max (s.depth - 1) 0 := by
  simp [Trace.applyHOp, Trace.out]

theorem applyHOp_depth_close_true (s : Trace.TrState) :
    (Trace.applyHOp s (Trace.HOp.closeOp true)).depth = s.depth := by
  simp [Trace.applyHOp, Trace.out]

theorem runHOps_opens_depth (n : Nat) :
    ∀ s : Trace.TrState,
      (Trace.runHOps s (List.replicate n Trace.HOp.openOp)).depth =
        s.depth + n := by
  induction n with
  | zero => intro s; simp [Trace.runHOps]
  | succ k ih =>
      intro s
      rw [List.replicate_succ]
      show (Trace.runHOps (Trace.applyHOp s Trace.HOp.openOp)
        (List.replicate k Trace.HOp.openOp)).depth = _
      rw [ih, applyHOp_depth_open]
      push_cast
      ring

theorem runHOps_closes_from (n : Nat) :
    ∀ s : Trace.TrState, s.depth = n →
      (Trace.runHOps s
        (List.replicate n (Trace.HOp.closeOp false))).depth = 0 := by
  induction n with
  | zero => intro s h; simpa [Trace.runHOps] using h
  | succ k ih =>
      intro s h
      rw [List.replicate_succ]
      show (Trace.runHOps (Trace.applyHOp s (Trace.HOp.closeOp false))
        (List.replicate k (Trace.HOp.closeOp false))).depth = 0
      apply ih
      rw [applyHOp_depth_close_false, h]
      have h1 : ((k + 1 : Nat) : Int) - 1 = (k : Int) := by push_cast; ring
      rw [h1, max_eq_left (by positivity)]

theorem runHOps_nonneg (ops : List Trace.HOp) :
    ∀ s : Trace.TrState, 0 ≤ s.depth → 0 ≤ (Trace.runHOps s ops).depth := by
  induction ops with
  | nil => intro s h; simpa [Trace.runHOps] using h
  | cons op rest ih =>
      intro s h
      show 0 ≤ (Trace.runHOps (Trace.applyHOp s op) rest).depth
      apply ih
      cases op with
      | openOp => rw [applyHOp_depth_open]; omega
      | closeOp ex =>
          cases ex with
          | false => rw [applyHOp_depth_close_false]; exact le_max_right _ _
          | true => rw [applyHOp_depth_close_true]; exact h

/-! ## Claims -/

/-- C4: `parseOptions` is a (total) function on strings following the
fixed letter table: `parseOptions "fl"` has exactly the file-name and
line-number bits set and all other bits clear, `parseOptions ""` is 0,
and `parseOptions "fx"` has only the file-name bit set because the
letter `x` is outside the table and is ignored with no effect and no
failure. -/
theorem c4_parseOptions_letter_table :
    (∀ b : Nat, (Trace.parseOptions "fl").testBit b = true ↔
      (b = Trace.fileNameBit ∨ b = Trace.lineNumberBit))
    ∧ Trace.parseOptions "" = 0
    ∧ (∀ b : Nat, (Trace.parseOptions "fx").testBit b = true ↔
      b = Trace.fileNameBit) := by
  refine ⟨fun b => ?_, rfl, fun b => ?_⟩
  · have h : Trace.parseOptions "fl" = 2 ^ 2 - 1 := by decide
    rw [h, Nat.testBit_two_pow_sub_one]
    simp only [decide_eq_true_eq, Trace.fileNameBit, Trace.lineNumberBit]
    omega
  · have h : Trace.parseOptions "fx" = 2 ^ 1 - 1 := by decide
    rw [h, Nat.testBit_two_pow_sub_one]
    simp only [decide_eq_true_eq, Trace.fileNameBit]
    omega

/-- C9: a measured interval is rendered with a fixed three-digit decimal
fraction, while an event with no measured interval (the `ms = -1.0`
default of `traceOut`, modelled as `none`) renders the explicit
placeholder `"-"` in the elapsed-time position, which no measured
rendering (in particular not "zero elapsed") can coincide with. -/
theorem c9_elapsed_placeholder :
    (∀ us : Nat, Trace.formatElapsed (some us) =
        toString (us / 1000) ++ "." ++ Trace.pad3 (us % 1000)
      ∧ (Trace.pad3 (us % 1000)).length = 3)
    ∧ Trace.formatElapsed none = "-"
    ∧ (∀ us : Nat,
        Trace.formatElapsed (some us) ≠ Trace.formatElapsed none) := by
  refine ⟨fun us => ⟨rfl, rfl⟩, rfl, fun us h => ?_⟩
  have hlen : (Trace.formatElapsed (some us)).length =
      (toString (us / 1000)).length + 1 + 3 := by
    show (toString (us / 1000) ++ "." ++ Trace.pad3 (us % 1000)).length = _
    rw [String.length_append, String.length_append]
    rfl
  rw [h] at hlen
  have h1 : (Trace.formatElapsed none).length = 1 := rfl
  omega

/-- C10: a newly constructed `Context` starts with nesting depth exactly
0, a null `Configuration` pointer and a null log-stream pointer; a newly
constructed `Configuration` starts with an options bitmask of 0; and a
thread looked up before its first handle is opened (its registry entry
absent) shows nesting depth 0. -/
theorem c10_fresh_defaults :
    Trace.Context.init.nestingLevel = 0
    ∧ Trace.Context.init.conf = none
    ∧ Trace.Context.init.logStream_ = none
    ∧ Trace.Configuration.init.options = 0
    ∧ (∀ (r : List Trace.Context) (tid : Nat),
        Trace.findContext r tid = none →
        (Trace.contextFor r tid).1.nestingLevel = 0) := by
  refine ⟨rfl, rfl, rfl, rfl, fun r tid h => ?_⟩
  simp [Trace.contextFor, h, Trace.Context.init]

/-- Witness for C10 at the empty registry and thread identity 7. -/
theorem c10_fresh_defaults_witness :
    Trace.findContext [] 7 = none
    ∧ (Trace.contextFor [] 7).1.nestingLevel = 0 :=
  ⟨rfl, c10_fresh_defaults.2.2.2.2 [] 7 rfl⟩

/-- C1: with tracing enabled and the call-trace bit set, every opened
handle emits exactly one exit line over its whole lifetime: an explicit
`out` followed by destruction emits the exit line once, not twice, and
destruction without an explicit `out` emits the one exit line itself. -/
theorem c1_exactly_one_exit (s : Trace.TrState) (func file : String)
    (line l : Int) (e1 e2 : Nat)
    (hd : s.disabled = false)
    (ht : s.options.testBit Trace.traceBit = true) :
    (Trace.exitCount
        (Trace.destroyHandle
          (Trace.out (Trace.traceEnter s func file line).1
            (Trace.traceEnter s func file line).2 l e1).1
          (Trace.out (Trace.traceEnter s func file line).1
            (Trace.traceEnter s func file line).2 l e1).2 e2).output =
      Trace.exitCount s.output + 1)
    ∧ (Trace.exitCount
        (Trace.destroyHandle (Trace.traceEnter s func file line).1
          (Trace.traceEnter s func file line).2 e2).output =
      Trace.exitCount s.output + 1) := by
  constructor <;>
    simp [Trace.destroyHandle, Trace.out, Trace.traceEnter, Trace.emitting,
      hd, ht, Trace.exitCount, Trace.isExitLine, List.filter_append]

/-- Witness for C1: a concrete enabled state with the `t` bit set; both
the explicit-then-destroyed path and the destroy-only path add exactly
one exit line. -/
theorem c1_exactly_one_exit_witness :
    (⟨false, 64, none, 0, []⟩ : Trace.TrState).disabled = false
    ∧ (64 : Nat).testBit Trace.traceBit = true
    ∧ Trace.exitCount
        (Trace.destroyHandle
          (Trace.out (Trace.traceEnter ⟨false, 64, none, 0, []⟩ "f" "a.cpp" 1).1
            (Trace.traceEnter ⟨false, 64, none, 0, []⟩ "f" "a.cpp" 1).2 2 5).1
          (Trace.out (Trace.traceEnter ⟨false, 64, none, 0, []⟩ "f" "a.cpp" 1).1
            (Trace.traceEnter ⟨false, 64, none, 0, []⟩ "f" "a.cpp" 1).2 2 5).2 9).output =
      Trace.exitCount (⟨false, 64, none, 0, []⟩ : Trace.TrState).output + 1
    ∧ Trace.exitCount
        (Trace.destroyHandle (Trace.traceEnter ⟨false, 64, none, 0, []⟩ "f" "a.cpp" 1).1
          (Trace.traceEnter ⟨false, 64, none, 0, []⟩ "f" "a.cpp" 1).2 9).output =
      Trace.exitCount (⟨false, 64, none, 0, []⟩ : Trace.TrState).output + 1 :=
  ⟨rfl, by decide,
   (c1_exactly_one_exit ⟨false, 64, none, 0, []⟩ "f" "a.cpp" 1 2 5 9 rfl
     (by decide)).1,
   (c1_exactly_one_exit ⟨false, 64, none, 0, []⟩ "f" "a.cpp" 1 2 5 9 rfl
     (by decide)).2⟩

/-- C2: opening N nested handles on one thread and closing them in
reverse order leaves the nesting depth at exactly 0; and over any
sequence of opens and closes — out-of-order or repeated closes included
— the depth never becomes negative (defensive floor at 0). -/
theorem c2_depth_floor :
    (∀ (s : Trace.TrState) (ops : List Trace.HOp), 0 ≤ s.depth →
      0 ≤ (Trace.runHOps s ops).depth)
    ∧ (∀ (s : Trace.TrState) (n : Nat), s.depth = 0 →
      (Trace.runHOps s
        (List.replicate n Trace.HOp.openOp ++
         List.replicate n (Trace.HOp.closeOp false))).depth = 0) := by
  refine ⟨fun s ops h => runHOps_nonneg ops s h, fun s n h => ?_⟩
  rw [runHOps_append]
  apply runHOps_closes_from
  rw [runHOps_opens_depth, h]
  ring

/-- Witness for C2: from depth 0, two stray closes keep the depth
non-negative, and two opens followed by two closes return it to 0. -/
theorem c2_depth_floor_witness :
    (0 ≤ (Trace.runHOps ⟨false, 0, none, 0, []⟩
      [Trace.HOp.closeOp false, Trace.HOp.closeOp false]).depth)
    ∧ (Trace.runHOps ⟨false, 0, none, 0, []⟩
        (List.replicate 2 Trace.HOp.openOp ++
         List.replicate 2 (Trace.HOp.closeOp false))).depth = 0 :=
  ⟨c2_depth_floor.1 ⟨false, 0, none, 0, []⟩ _ (by decide),
   c2_depth_floor.2 ⟨false, 0, none, 0, []⟩ 2 rfl⟩

/-- C5: while the process-wide disable flag is set, no operation —
handle entry and exit (explicit or by destruction), `printState`,
`check`, `compare`, profiler timers — emits any output line, for every
per-context configuration and option bitmask. -/
theorem c5_disabled_silences (s : Trace.TrState) (hd : s.disabled = true)
    (func file kw txt e fst snd : String) (line l : Int) (eq : Bool)
    (us : Nat) (h : Trace.Handle) (r : Bool) :
    (Trace.traceEnter s func file line).1.output = s.output
    ∧ (Trace.out s h l us).1.output = s.output
    ∧ (Trace.destroyHandle s h us).output = s.output
    ∧ (Trace.printState s kw txt).output = s.output
    ∧ (Trace.check s e r l).output = s.output
    ∧ (Trace.compare s fst snd eq l).output = s.output
    ∧ (Trace.profTimerStart s l).output = s.output
    ∧ (Trace.profTimerElapsed s l us).output = s.output := by
  have hem : ∀ b, Trace.emitting s b = false := fun b => by
    simp [Trace.emitting, hd]
  refine ⟨?_, ?_, ?_, ?_, ?_, ?_, ?_, ?_⟩ <;>
    simp [Trace.traceEnter, Trace.out, Trace.destroyHandle, Trace.printState,
      Trace.check, Trace.compare, Trace.profTimerStart,
      Trace.profTimerElapsed, hem] <;>
    split <;> simp

/-- Witness for C5: a disabled state with every option bit set and a
nonempty configuration emits nothing on a `check` call or a handle
destruction. -/
theorem c5_disabled_silences_witness :
    (⟨true, 1023, some Trace.dbPattern, 3, []⟩ : Trace.TrState).disabled = true
    ∧ (Trace.check ⟨true, 1023, some Trace.dbPattern, 3, []⟩ "x==1" true 9).output =
        (⟨true, 1023, some Trace.dbPattern, 3, []⟩ : Trace.TrState).output
    ∧ (Trace.destroyHandle ⟨true, 1023, some Trace.dbPattern, 3, []⟩
        ⟨"g", "b.cpp", 4, 4, false⟩ 11).output =
        (⟨true, 1023, some Trace.dbPattern, 3, []⟩ : Trace.TrState).output :=
  ⟨rfl,
   (c5_disabled_silences ⟨true, 1023, some Trace.dbPattern, 3, []⟩ rfl
     "f" "a.cpp" "kw" "txt" "x==1" "u" "v" 9 9 true 11
     ⟨"g", "b.cpp", 4, 4, false⟩ true).2.2.2.2.1,
   (c5_disabled_silences ⟨true, 1023, some Trace.dbPattern, 3, []⟩ rfl
     "f" "a.cpp" "kw" "txt" "x==1" "u" "v" 9 9 true 11
     ⟨"g", "b.cpp", 4, 4, false⟩ true).2.2.1⟩

/-- C6: with tracing enabled and the print bit set, `printState`'s
keyword filter: an empty filter pattern lets every keyword through
(including the empty keyword), and a set pattern emits the print line
exactly when the keyword matches the pattern as a full
regular-expression match — not a substring search — so pattern `^db.*`
passes keyword `db_init` and suppresses keyword `net_send`, while the
plain pattern `db` does not pass `db_init`. -/
theorem c6_print_filter (s : Trace.TrState) (kw txt : String)
    (hd : s.disabled = false)
    (hp : s.options.testBit Trace.printBit = true) :
    (s.filter = none →
      Trace.printState s kw txt =
        { s with output := s.output ++ [Trace.Line.print kw txt] })
    ∧ (∀ r, s.filter = some r →
        Trace.printState s kw txt =
          (if Trace.rmatch r kw.data then
            { s with output := s.output ++ [Trace.Line.print kw txt] }
          else s))
    ∧ Trace.rmatch Trace.dbPattern "db_init".data = true
    ∧ Trace.rmatch Trace.dbPattern "net_send".data = false
    ∧ Trace.rmatch (Trace.Regex.cat (Trace.Regex.chr 'd')
        (Trace.Regex.chr 'b')) "db_init".data = false := by
  refine ⟨fun hf => ?_, fun r hf => ?_, by decide, by decide, by decide⟩
  · simp [Trace.printState, Trace.emitting, hd, hp, Trace.filterPasses, hf]
  · simp only [Trace.printState, Trace.emitting, hd, hp,
      Trace.filterPasses, hf, Bool.not_false, Bool.true_and]

/-- Witness for C6: an enabled state with the `p` bit set and no filter
emits for an arbitrary keyword, and the same state filtered by `^db.*`
behaves as the full match of the keyword dictates. -/
theorem c6_print_filter_witness :
    (⟨false, 32, none, 0, []⟩ : Trace.TrState).filter = none
    ∧ Trace.printState ⟨false, 32, none, 0, []⟩ "anykw" "txt" =
        { (⟨false, 32, none, 0, []⟩ : Trace.TrState) with
            output := (⟨false, 32, none, 0, []⟩ : Trace.TrState).output ++
              [Trace.Line.print "anykw" "txt"] }
    ∧ Trace.printState ⟨false, 32, some Trace.dbPattern, 0, []⟩ "db_init" "txt" =
        (if Trace.rmatch Trace.dbPattern "db_init".data then
          { (⟨false, 32, some Trace.dbPattern, 0, []⟩ : Trace.TrState) with
              output := (⟨false, 32, some Trace.dbPattern, 0, []⟩ :
                Trace.TrState).output ++ [Trace.Line.print "db_init" "txt"] }
        else ⟨false, 32, some Trace.dbPattern, 0, []⟩) :=
  ⟨rfl,
   (c6_print_filter ⟨false, 32, none, 0, []⟩ "anykw" "txt" rfl (by decide)).1 rfl,
   (c6_print_filter ⟨false, 32, some Trace.dbPattern, 0, []⟩ "db_init" "txt" rfl
     (by decide)).2.1 Trace.dbPattern rfl⟩

/-- C7: with tracing enabled, `check` emits its pass/fail line —
recording the literal expression text and the boolean result — exactly
when the check-output bit `c` is set in the active options; when the bit
is clear the call is a complete no-op on the state, and in every case
`check` touches nothing but the output (the checked expression having
been evaluated by the caller and passed in), so calling it never changes
the instrumented program's behavior. -/
theorem c7_check_gated (s : Trace.TrState) (e : String) (r : Bool) (l : Int)
    (hd : s.disabled = false) :
    ((Trace.check s e r l).output =
        s.output ++ [Trace.Line.checkLine e r l] ↔
      s.options.testBit Trace.checkBit = true)
    ∧ (s.options.testBit Trace.checkBit = false → Trace.check s e r l = s)
    ∧ (Trace.check s e r l).disabled = s.disabled
    ∧ (Trace.check s e r l).options = s.options
    ∧ (Trace.check s e r l).filter = s.filter
    ∧ (Trace.check s e r l).depth = s.depth := by
  by_cases hc : s.options.testBit Trace.checkBit = true
  · simp [Trace.check, Trace.emitting, hd, hc]
  · simp only [Bool.not_eq_true] at hc
    simp [Trace.check, Trace.emitting, hd, hc]

/-- Witness for C7: with the `c` bit set the line is appended; the
non-output fields are untouched either way. -/
theorem c7_check_gated_witness :
    (⟨false, 256, none, 5, []⟩ : Trace.TrState).disabled = false
    ∧ ((Trace.check ⟨false, 256, none, 5, []⟩ "x==1" true 9).output =
        (⟨false, 256, none, 5, []⟩ : Trace.TrState).output ++
          [Trace.Line.checkLine "x==1" true 9] ↔
      (⟨false, 256, none, 5, []⟩ : Trace.TrState).options.testBit
        Trace.checkBit = true)
    ∧ (Trace.check ⟨false, 256, none, 5, []⟩ "x==1" true 9).depth =
        (⟨false, 256, none, 5, []⟩ : Trace.TrState).depth :=
  ⟨rfl,
   (c7_check_gated ⟨false, 256, none, 5, []⟩ "x==1" true 9 rfl).1,
   (c7_check_gated ⟨false, 256, none, 5, []⟩ "x==1" true 9 rfl).2.2.2.2.2⟩

theorem contextFor_fst_threadId (r : List Trace.Context) (tid : Nat) :
    (Trace.contextFor r tid).1.threadId = tid := by
  cases hf : Trace.findContext r tid with
  | none => simp [Trace.contextFor, hf, Trace.Context.init]
  | some c =>
      have hf' : List.find? (fun c => c.threadId == tid) r = some c := hf
      have hc := List.find?_some hf'
      simp only [Trace.contextFor, hf]
      exact eq_of_beq hc

theorem contextFor_preserves_nodup (r : List Trace.Context) (tid : Nat)
    (hnd : (r.map Trace.Context.threadId).Nodup) :
    (((Trace.contextFor r tid).2).map Trace.Context.threadId).Nodup := by
  cases hf : Trace.findContext r tid with
  | some c => simpa [Trace.contextFor, hf] using hnd
  | none =>
      have hf' : List.find? (fun c => c.threadId == tid) r = none := hf
      have hnotin : tid ∉ r.map Trace.Context.threadId := by
        intro hmem
        obtain ⟨c, hc, hct⟩ := List.mem_map.1 hmem
        have hfc := List.find?_eq_none.1 hf' c hc
        simp [hct] at hfc
      simp only [Trace.contextFor, hf, List.map_append, List.map_cons,
        List.map_nil, Trace.Context.init]
      rw [List.nodup_append]
      refine ⟨hnd, List.nodup_singleton _, ?_⟩
      intro a ha hb
      simp only [List.mem_singleton] at hb
      subst hb
      exact hnotin ha

theorem depthOf_bumpDepth_ne (r : List Trace.Context) (t1 t2 : Nat)
    (hne : t1 ≠ t2) (f : Int → Int) :
    Trace.depthOf (Trace.bumpDepth r t1 f) t2 = Trace.depthOf r t2 := by
  unfold Trace.depthOf Trace.findContext Trace.bumpDepth
  rw [List.find?_map]
  have hfun : ((fun c : Trace.Context => c.threadId == t2) ∘
      (fun c : Trace.Context =>
        if c.threadId == t1 then { c with nestingLevel := f c.nestingLevel }
        else c)) = fun c : Trace.Context => c.threadId == t2 := by
    funext c
    by_cases h : c.threadId = t1 <;> simp [h]
  rw [hfun]
  cases hfind : List.find? (fun c : Trace.Context => c.threadId == t2) r with
  | none => rfl
  | some c =>
      have hb := List.find?_some hfind
      have h2 : c.threadId = t2 := eq_of_beq hb
      have hneq : ¬ (c.threadId = t1) := by
        rw [h2]
        exact fun hh => hne hh.symm
      simp [hneq]

/-- C3: for distinct thread identities, the registry lookup yields
distinct Contexts (each carrying its own thread identity), lazy creation
preserves the at-most-one-Context-per-thread invariant, and mutating the
nesting depth of one thread's Context never changes the other thread's
recorded depth. -/
theorem c3_context_isolation (r : List Trace.Context) (t1 t2 : Nat)
    (hne : t1 ≠ t2) :
    ((Trace.contextFor r t1).1.threadId = t1
      ∧ (Trace.contextFor r t2).1.threadId = t2
      ∧ (Trace.contextFor r t1).1 ≠ (Trace.contextFor r t2).1)
    ∧ ((r.map Trace.Context.threadId).Nodup →
        (((Trace.contextFor r t1).2).map Trace.Context.threadId).Nodup)
    ∧ (∀ f : Int → Int,
        Trace.depthOf (Trace.bumpDepth r t1 f) t2 = Trace.depthOf r t2) := by
  refine ⟨⟨contextFor_fst_threadId r t1, contextFor_fst_threadId r t2, ?_⟩,
    fun hnd => contextFor_preserves_nodup r t1 hnd,
    fun f => depthOf_bumpDepth_ne r t1 t2 hne f⟩
  intro heq
  apply hne
  rw [← contextFor_fst_threadId r t1, ← contextFor_fst_threadId r t2, heq]

/-- Witness for C3 at the empty registry with thread identities 1 and 2,
the depth mutation being an increment. -/
theorem c3_context_isolation_witness :
    (Trace.contextFor [] 1).1 ≠ (Trace.contextFor [] 2).1
    ∧ (((Trace.contextFor [] 1).2).map Trace.Context.threadId).Nodup
    ∧ Trace.depthOf (Trace.bumpDepth [] 1 (fun d => d + 1)) 2 =
        Trace.depthOf [] 2 :=
  ⟨(c3_context_isolation [] 1 2 (by decide)).1.2.2,
   (c3_context_isolation [] 1 2 (by decide)).2.1 (by simp),
   (c3_context_isolation [] 1 2 (by decide)).2.2 (fun d => d + 1)⟩

theorem lookupConf_cons (p : String × Trace.Configuration)
    (rest : Trace.ConfigMap) (name : String) :
    Trace.lookupConf (p :: rest) name =
      if p.1 == name then some p.2 else Trace.lookupConf rest name := by
  unfold Trace.lookupConf
  rw [List.find?_cons]
  by_cases hp : (p.1 == name) = true <;> simp [hp]

theorem updateConf_cons (p : String × Trace.Configuration)
    (rest : Trace.ConfigMap) (name : String)
    (f : Trace.Configuration → Trace.Configuration) :
    Trace.updateConf (p :: rest) name f =
      (if p.1 == name then (p.1, f p.2) else p) :: Trace.updateConf rest name f :=
  rfl

theorem lookupConf_none_update (m : Trace.ConfigMap) (name : String)
    (f : Trace.Configuration → Trace.Configuration) :
    Trace.lookupConf m name = none → Trace.updateConf m name f = m := by
  induction m with
  | nil => intro _; rfl
  | cons p rest ih =>
      intro h
      rw [lookupConf_cons] at h
      by_cases hp : (p.1 == name) = true
      · rw [if_pos hp] at h
        exact absurd h (by simp)
      · rw [if_neg hp] at h
        rw [updateConf_cons, if_neg hp, ih h]

theorem lookupConf_update_self (m : Trace.ConfigMap) (name : String)
    (f : Trace.Configuration → Trace.Configuration)
    (c : Trace.Configuration) :
    Trace.lookupConf m name = some c →
    Trace.lookupConf (Trace.updateConf m name f) name = some (f c) := by
  induction m with
  | nil => intro h; exact absurd h (by simp [Trace.lookupConf])
  | cons p rest ih =>
      intro h
      rw [lookupConf_cons] at h
      by_cases hp : (p.1 == name) = true
      · rw [if_pos hp] at h
        have hc : p.2 = c := Option.some.inj h
        rw [updateConf_cons, if_pos hp, lookupConf_cons]
        simp [hp, hc]
      · rw [if_neg hp] at h
        rw [updateConf_cons, if_neg hp, lookupConf_cons, if_neg hp]
        exact ih h

/-- C8: every configuration mutator applied to a name not present in the
table is a silent no-op leaving the table unchanged; `createContext`
always succeeds — on a fresh name it installs an entry whose non-option
fields are the constructor defaults, and on an existing name it
overwrites only that entry's option bitmask, leaving previously set
prompt and filter fields untouched. -/
theorem c8_config_store (m : Trace.ConfigMap) (name opts t pat tgt pr : String)
    (o : Nat) (ow : Bool) :
    (Trace.lookupConf m name = none →
      Trace.setOptions m name o = m
      ∧ Trace.setSimpleSearchStr m name t = m
      ∧ Trace.setRegExpStr m name pat = m
      ∧ Trace.setLogFile m name tgt ow = m
      ∧ Trace.setPrompt m name pr = m)
    ∧ (Trace.lookupConf m name = none →
        Trace.lookupConf (Trace.createContext m name opts) name =
          some { Trace.Configuration.init with
                   name := name, options := Trace.parseOptions opts })
    ∧ (∀ c, Trace.lookupConf m name = some c →
        Trace.lookupConf (Trace.createContext m name opts) name =
          some { c with options := Trace.parseOptions opts }) := by
  refine ⟨fun h => ⟨lookupConf_none_update m name _ h,
      lookupConf_none_update m name _ h, lookupConf_none_update m name _ h,
      lookupConf_none_update m name _ h, lookupConf_none_update m name _ h⟩,
    fun h => ?_, fun c h => ?_⟩
  · have hcr : Trace.createContext m name opts =
        (name, { Trace.Configuration.init with
                   name := name, options := Trace.parseOptions opts }) :: m := by
      unfold Trace.createContext
      rw [h]
    rw [hcr, lookupConf_cons]
    simp
  · have hcr : Trace.createContext m name opts =
        Trace.updateConf m name
          (fun c => { c with options := Trace.parseOptions opts }) := by
      unfold Trace.createContext
      rw [h]
    rw [hcr]
    exact lookupConf_update_self m name _ c h

/-- Witness for C8: on the empty table every mutator is a no-op and
creation installs the parsed bitmask; on a table whose entry has a
prompt and a filter set, re-creation overwrites only the bitmask. -/
theorem c8_config_store_witness :
    Trace.lookupConf [] "app" = none
    ∧ Trace.setPrompt [] "app" "P" = []
    ∧ Trace.lookupConf (Trace.createContext [] "app" "fl") "app" =
        some { Trace.Configuration.init with
                 name := "app", options := Trace.parseOptions "fl" }
    ∧ Trace.lookupConf
        (Trace.createContext
          [("app", { Trace.Configuration.init with
                       name := "app", prompt := "P", regexpStr := "^db.*" })]
          "app" "fl") "app" =
        some { { Trace.Configuration.init with
                   name := "app", prompt := "P", regexpStr := "^db.*" } with
                 options := Trace.parseOptions "fl" } :=
  ⟨rfl,
   ((c8_config_store [] "app" "fl" "t" "p" "tg" "P" 0 true).1 rfl).2.2.2.2,
   (c8_config_store [] "app" "fl" "t" "p" "tg" "P" 0 true).2.1 rfl,
   (c8_config_store
      [("app", { Trace.Configuration.init with
                   name := "app", prompt := "P", regexpStr := "^db.*" })]
      "app" "fl" "t" "p" "tg" "P" 0 true).2.2 _ rfl⟩
